import Mathlib

/-!
Verification of the print-kiosk core logic (`raspberry_pi_kiosk.py`):
page-range handling, spooler option construction, print-job status
polling, upload intake, stored-file naming and the scratch-file
lifecycle.  Each definition is a shallow embedding of the corresponding
Python function; definitions marked `Modelled from the spec` embed
operations that the specification describes but that have no
implementation in the source file.
-/

namespace Kiosk

/-! ## Print settings and spooler options (`start_printing`, `do_print`) -/

/-- The three user-chosen print settings, as collected by
`start_printing` into `self.print_settings`. -/
structure PrintSettings where
  page_range : String
  orientation : String
  duplex : String
deriving DecidableEq

/-- The CUPS options mapping built by `do_print`: the optional
`page-ranges` entry, the `orientation-requested` code and the `sides`
mode. -/
structure CupsOptions where
  page_ranges : Option String
  orientation_requested : String
  sides : String
deriving DecidableEq

/-- The placeholder text pre-inserted into the custom-range entry field
by `show_preview`. -/
def placeholderText : String := "e.g. 1-3,5"

/-- The page-range string collected by `start_printing` from the
radio-button selection and the entry-field text: the custom entry is
used only when the custom option is selected and the field is not the
untouched placeholder; otherwise the range is the literal string
`all`. -/
def start_printing_page_range (selection entry : String) : String :=
  if selection = "custom" then
    if entry = placeholderText then "all" else entry
  else "all"

/-- The settings snapshot captured by `start_printing`. -/
def start_printing_settings (selection entry orientation duplex : String) :
    PrintSettings :=
  { page_range := start_printing_page_range selection entry
    orientation := orientation
    duplex := duplex }

/-- The CUPS options built by `do_print` from the captured settings:
`page-ranges` is set only when the range is not `all`;
landscape maps to orientation code `4`, otherwise `3`; duplex `long`
maps to `two-sided-long-edge`, `short` to `two-sided-short-edge`, and
anything else to `one-sided`. -/
def do_print_options (s : PrintSettings) : CupsOptions :=
  { page_ranges := if s.page_range ≠ "all" then some s.page_range else none
    orientation_requested := if s.orientation = "landscape" then "4" else "3"
    sides :=
      if s.duplex = "long" then "two-sided-long-edge"
      else if s.duplex = "short" then "two-sided-short-edge"
      else "one-sided" }

/-! ## Preview page navigation (`show_preview`, `prev_page`, `next_page`) -/

/-- `show_preview` initialises `self.current_page` to 0. -/
def show_preview_page : Nat := 0

/-- `prev_page` decrements the page index only when it is positive. -/
def prev_page (page : Nat) : Nat :=
  if 0 < page then page - 1 else page

/-- `next_page` increments the page index only while it is below the
last page index `pageCount - 1`. -/
def next_page (pageCount page : Nat) : Nat :=
  if page < pageCount - 1 then page + 1 else page

/-! ## Print-job status polling (`do_print`) -/

/-- One observation of the submitted job made by an iteration of the
polling loop in `do_print`: either the job identifier is absent from
`getJobs()`, or it is present with a CUPS `job-state` code. -/
inductive JobObs where
  | absent : JobObs
  | state : Nat → JobObs
deriving DecidableEq

/-- Terminal outcome of the polling loop. -/
inductive PollOutcome where
  | completed : PollOutcome
  | cancelled : PollOutcome
deriving DecidableEq

/-- The polling loop of `do_print`, run over a finite trace of spooler
observations: a missing job identifier breaks the loop (success), a
job-state code 9 breaks the loop (success), a code 8 raises the
cancellation error, and any other code continues polling.  `none`
means the trace ended with the loop still polling. -/
def pollJob : List JobObs → Option PollOutcome
  | [] => none
  | JobObs.absent :: _ => some PollOutcome.completed
  | JobObs.state c :: rest =>
    if c = 9 then some PollOutcome.completed
    else if c = 8 then some PollOutcome.cancelled
    else pollJob rest

/-- An observation that keeps the polling loop of `do_print` running:
the job is still listed with a state code that is neither 9
(completed) nor 8 (cancelled). -/
def nonTerminalObs : JobObs → Prop
  | JobObs.absent => False
  | JobObs.state c => c ≠ 9 ∧ c ≠ 8

/-- The outward result of one `do_print` call: the screen shown at the
end, whether an error dialog was shown, and how many jobs were
submitted to the spooler. -/
structure PrintRun where
  screen : String
  errorShown : Bool
  submissions : Nat
deriving DecidableEq

/-- `do_print` as a whole: without a CUPS connection it raises before
submitting, shows the error and returns to the welcome screen; with a
connection it submits the job exactly once and then polls: a completed
outcome shows the success screen, a cancellation raises, shows the
error and returns to the welcome screen, and an unfinished trace
leaves the printing screen up.  No branch submits a second job. -/
def do_print (cupsAvailable : Bool) (trace : List JobObs) : PrintRun :=
  if cupsAvailable = false then ⟨"welcome", true, 0⟩
  else
    match pollJob trace with
    | some PollOutcome.completed => ⟨"success", false, 1⟩
    | some PollOutcome.cancelled => ⟨"welcome", true, 1⟩
    | none => ⟨"printing", false, 1⟩

/-! ## Decimal rendering

`receive_file` embeds the whole-second timestamp into the stored file
name through Python decimal integer formatting; the Lean counterpart
is `Nat.repr`.  `decChars` is a structurally recursive rendering of
the same digits, used to reason about `Nat.repr`. -/

/-- The decimal digit characters of `n`, most significant first. -/
def decChars (n : Nat) : List Char :=
  if h : n < 10 then [Nat.digitChar n]
  else decChars (n / 10) ++ [Nat.digitChar (n % 10)]
termination_by n
decreasing_by exact Nat.div_lt_self (by omega) (by omega)

/-- Reads a digit string back into the number it denotes. -/
def decodeDec (l : List Char) : Nat :=
  l.foldl (fun acc c => acc * 10 + (c.toNat - 48)) 0

/-! ## Upload intake and scratch-file lifecycle (`receive_file`, `cleanup`) -/

/-- The stored file name chosen by `receive_file` for an upload
received at whole-second timestamp `t`: the literal `print_`, the
decimal timestamp, an underscore and the original filename. -/
def storedName (t : Nat) (filename : String) : String :=
  "print_" ++ Nat.repr t ++ "_" ++ filename

/-- The stored path: the scratch directory joined with the stored
name. -/
def storedPath (tempDir : String) (t : Nat) (filename : String) : String :=
  tempDir ++ "/" ++ storedName t filename

/-- The part of an intake request that `receive_file` inspects:
whether the multipart body has a `file` part, and that part's original
filename. -/
structure UploadRequest where
  hasFilePart : Bool
  filename : String
deriving DecidableEq

/-- The HTTP status and success flag of the JSON reply sent by
`receive_file`. -/
structure HttpResponse where
  status : Nat
  success : Bool
deriving DecidableEq

/-- The kiosk state that intake and shutdown touch: the active
document path, the set of stored files in the scratch directory, and
the current screen. -/
structure KioskState where
  currentFile : Option String
  disk : List String
  screen : String
deriving DecidableEq

/-- Writing a file to the scratch directory: creates the path, or
overwrites in place when it already exists. -/
def save (p : String) (disk : List String) : List String :=
  if p ∈ disk then disk else p :: disk

/-- The `/receive_file` handler: a missing `file` part or an empty
filename is answered with status 400 and touches nothing; otherwise
the upload is saved under `storedPath`, the active document is
replaced (the previous stored file is not deleted), the confirmation
screen is scheduled and the document-ready event is emitted (the
returned flag). -/
def receive_file (tempDir : String) (t : Nat) (req : UploadRequest)
    (s : KioskState) : HttpResponse × KioskState × Bool :=
  if req.hasFilePart = false then (⟨400, false⟩, s, false)
  else if req.filename = "" then (⟨400, false⟩, s, false)
  else
    let p := storedPath tempDir t req.filename
    (⟨200, true⟩,
      { currentFile := some p, disk := save p s.disk, screen := "confirmation" },
      true)

/-- The `cleanup` handler run on window close: removes the currently
active stored file when it exists, and nothing else. -/
def cleanup (s : KioskState) : KioskState :=
  match s.currentFile with
  | none => s
  | some f => if f ∈ s.disk then { s with disk := s.disk.erase f } else s

/-! ## Page-range parsing

Modelled from the spec: the source has no page-range parser at all —
`start_printing` hands the raw range string to `do_print`, which
forwards it to the spooler unvalidated — so the parser contract of
spec section 4.2 is embedded from the words of the spec:
comma-separated tokens, each a single 1-based integer or an inclusive
range a-b with a at most b, with `all` or the empty string meaning
every page; referenced pages must lie within 1..total_pages;
overlapping ranges are permitted; output is sorted ascending with
duplicates removed; a bad token makes the parse fail with an
InvalidRange error carrying that token. -/

/-- Modelled from the spec: splits a character list at every
occurrence of the separator. -/
def splitOnChar (sep : Char) : List Char → List (List Char)
  | [] => [[]]
  | c :: rest =>
    match splitOnChar sep rest with
    | [] => [[]]
    | t :: ts => if c = sep then [] :: t :: ts else (c :: t) :: ts

/-- Modelled from the spec: the value of one decimal digit
character. -/
def digitVal? (c : Char) : Option Nat :=
  if '0' ≤ c ∧ c ≤ '9' then some (c.toNat - 48) else none

/-- Modelled from the spec: accumulates digit values left to right. -/
def natFromCharsAux : List Char → Nat → Option Nat
  | [], acc => some acc
  | c :: rest, acc =>
    match digitVal? c with
    | some d => natFromCharsAux rest (acc * 10 + d)
    | none => none

/-- Modelled from the spec: reads a non-empty all-digit character
list as the integer it denotes. -/
def natFromChars (l : List Char) : Option Nat :=
  match l with
  | [] => none
  | _ :: _ => natFromCharsAux l 0

/-- Modelled from the spec: reads one token as an inclusive page
interval — a single integer n gives the interval n-n, a hyphenated
pair gives a-b — returning `none` for a malformed token, a page
outside 1..total, or a reversed range. -/
def parseTokenCore (total : Nat) (parts : List (List Char)) :
    Option (Nat × Nat) :=
  match parts with
  | [s] =>
    match natFromChars s with
    | some p => if 1 ≤ p ∧ p ≤ total then some (p, p) else none
    | none => none
  | [s1, s2] =>
    match natFromChars s1, natFromChars s2 with
    | some a, some b =>
      if 1 ≤ a ∧ a ≤ b ∧ b ≤ total then some (a, b) else none
    | _, _ => none
  | _ => none

/-- Modelled from the spec: parses one token, failing with the
InvalidRange error that carries the offending token. -/
def parseToken (total : Nat) (tok : String) : Except String (Nat × Nat) :=
  match parseTokenCore total (splitOnChar '-' tok.data) with
  | some r => Except.ok r
  | none => Except.error tok

/-- Modelled from the spec: the comma-separated tokens of a range
expression. -/
def tokens (expr : String) : List String :=
  (splitOnChar ',' expr.data).map (fun l => ⟨l⟩)

/-- Modelled from the spec: parses every token, failing on the first
offending one. -/
def collectRanges (total : Nat) : List String → Except String (List (Nat × Nat))
  | [] => Except.ok []
  | t :: ts =>
    match parseToken total t with
    | Except.error e => Except.error e
    | Except.ok r =>
      match collectRanges total ts with
      | Except.error e => Except.error e
      | Except.ok rs => Except.ok (r :: rs)

/-- The full 1-based page list of a document with `total` pages. -/
def allPages (total : Nat) : List Nat :=
  (List.range total).map (fun i => i + 1)

/-- Modelled from the spec: the page-range parse operation — `all` or
the empty string selects every page, otherwise every token must be
valid and the result is the ascending duplicate-free list of the pages
covered by some token. -/
def parse (expr : String) (total : Nat) : Except String (List Nat) :=
  if expr = "all" ∨ expr = "" then Except.ok (allPages total)
  else
    match collectRanges total (tokens expr) with
    | Except.error tok => Except.error tok
    | Except.ok ranges =>
      Except.ok ((allPages total).filter
        (fun p => ranges.any (fun r => decide (r.1 ≤ p ∧ p ≤ r.2))))

end Kiosk

/-! ## Theorems -/

namespace Kiosk

/-- Claim C6: for the settings (orientation landscape, duplex long,
page range all) the spooler options contain the landscape orientation
code `4` and the `two-sided-long-edge` sides mode and no `page-ranges`
entry; and in general the `page-ranges` entry is omitted exactly when
the page range is `all`. -/
theorem C6_options_landscape_long_all :
    do_print_options ⟨"all", "landscape", "long"⟩ =
      ⟨none, "4", "two-sided-long-edge"⟩
    ∧ ∀ s : PrintSettings,
        (do_print_options s).page_ranges = none ↔ s.page_range = "all" := by
  refine ⟨rfl, fun s => ?_⟩
  by_cases h : s.page_range = "all" <;> simp [do_print_options, h]

/-- Claim C9: the preview page index is 0-based and bounded: for a
document with at least one page, initialisation puts it at 0, and
previous-page and next-page navigation keep any in-bounds index within
the interval from 0 to the page count minus one. -/
theorem C9_preview_index_bounded (pageCount page : Nat)
    (hpc : 1 ≤ pageCount) (hpage : page ≤ pageCount - 1) :
    show_preview_page ≤ pageCount - 1
    ∧ prev_page page ≤ pageCount - 1
    ∧ next_page pageCount page ≤ pageCount - 1 := by
  unfold show_preview_page prev_page next_page
  refine ⟨Nat.zero_le _, ?_, ?_⟩ <;> split <;> omega

/-- Witness for C9 at page count 3, page index 1. -/
theorem C9_preview_index_bounded_witness :
    show_preview_page ≤ 3 - 1 ∧ prev_page 1 ≤ 3 - 1 ∧ next_page 3 1 ≤ 3 - 1 :=
  C9_preview_index_bounded 3 1 (by decide) (by decide)

/-- Claim C10: when the custom page-range option is selected but the
entry field still holds the placeholder text, the collected page range
is `all`, so no `page-ranges` restriction is sent to the spooler,
whatever the other settings are, and the range denotes every page of
the document. -/
theorem C10_placeholder_means_all :
    start_printing_page_range "custom" "e.g. 1-3,5" = "all"
    ∧ (∀ o d : String,
        (do_print_options
          (start_printing_settings "custom" "e.g. 1-3,5" o d)).page_ranges =
          none)
    ∧ ∀ n : Nat,
        parse (start_printing_page_range "custom" "e.g. 1-3,5") n
          = Except.ok (allPages n) := by
  refine ⟨rfl, fun o d => ?_, fun n => rfl⟩
  simp [do_print_options, start_printing_settings, start_printing_page_range,
    placeholderText]

/-- Polling a trace that starts with non-terminal observations reaches
the outcome determined by the first terminal observation. -/
theorem pollJob_append (pre : List JobObs) (tail : List JobObs)
    (hpre : ∀ o ∈ pre, nonTerminalObs o) :
    pollJob (pre ++ tail) = pollJob tail := by
  induction pre with
  | nil => rfl
  | cons o pre ih =>
    have ho := hpre o (List.mem_cons_self o pre)
    have hrest : ∀ o ∈ pre, nonTerminalObs o :=
      fun x hx => hpre x (List.mem_cons_of_mem o hx)
    cases o with
    | absent => exact absurd ho id
    | state c =>
      obtain ⟨h9, h8⟩ := ho
      simp only [List.cons_append, pollJob, if_neg h9, if_neg h8]
      exact ih hrest

/-- Claim C5: when the job identifier disappears from the active-jobs
list after only non-terminal status codes, the polling loop resolves
to the completed outcome and `do_print` ends on the success screen;
an explicit completed status code (9) resolves the same way. -/
theorem C5_disappearance_is_completed (pre rest : List JobObs)
    (hpre : ∀ o ∈ pre, nonTerminalObs o) :
    pollJob (pre ++ JobObs.absent :: rest) = some PollOutcome.completed
    ∧ pollJob (pre ++ JobObs.state 9 :: rest) = some PollOutcome.completed
    ∧ do_print true (pre ++ JobObs.absent :: rest) = ⟨"success", false, 1⟩ := by
  have h1 : pollJob (pre ++ JobObs.absent :: rest) = some PollOutcome.completed := by
    rw [pollJob_append pre _ hpre]; rfl
  have h2 : pollJob (pre ++ JobObs.state 9 :: rest) = some PollOutcome.completed := by
    rw [pollJob_append pre _ hpre]; rfl
  refine ⟨h1, h2, ?_⟩
  simp [do_print, h1]

/-- Witness for C5 on the trace (state 5, state 5, absent). -/
theorem C5_disappearance_is_completed_witness :
    pollJob ([JobObs.state 5, JobObs.state 5] ++ JobObs.absent :: [])
        = some PollOutcome.completed
    ∧ pollJob ([JobObs.state 5, JobObs.state 5] ++ JobObs.state 9 :: [])
        = some PollOutcome.completed
    ∧ do_print true ([JobObs.state 5, JobObs.state 5] ++ JobObs.absent :: [])
        = ⟨"success", false, 1⟩ :=
  C5_disappearance_is_completed [JobObs.state 5, JobObs.state 5] []
    (by intro o ho; fin_cases ho <;> exact ⟨by decide, by decide⟩)

/-- Claim C7: when polling observes the cancelled status code (8)
after only non-terminal codes, the loop resolves to the cancelled
outcome (never completed), `do_print` surfaces the error, returns to
the welcome screen, and submits no second job. -/
theorem C7_cancelled_is_terminal (pre rest : List JobObs)
    (hpre : ∀ o ∈ pre, nonTerminalObs o) :
    pollJob (pre ++ JobObs.state 8 :: rest) = some PollOutcome.cancelled
    ∧ pollJob (pre ++ JobObs.state 8 :: rest) ≠ some PollOutcome.completed
    ∧ do_print true (pre ++ JobObs.state 8 :: rest) = ⟨"welcome", true, 1⟩ := by
  have h1 : pollJob (pre ++ JobObs.state 8 :: rest) = some PollOutcome.cancelled := by
    rw [pollJob_append pre _ hpre]; rfl
  refine ⟨h1, by simp [h1], ?_⟩
  simp [do_print, h1]

/-- With enough fuel, the core digit renderer computes `decChars`. -/
theorem toDigitsCore_eq_decChars (fuel : Nat) :
    ∀ (n : Nat) (ds : List Char), n < fuel →
      Nat.toDigitsCore 10 fuel n ds = decChars n ++ ds := by
  induction fuel with
  | zero => intro n ds h; omega
  | succ fuel ih =>
    intro n ds h
    simp only [Nat.toDigitsCore]
    by_cases h0 : n / 10 = 0
    · have hn : n < 10 := (Nat.div_eq_zero_iff (by omega)).1 h0
      rw [if_pos h0, decChars, dif_pos hn, Nat.mod_eq_of_lt hn]
      rfl
    · have hn : ¬ n < 10 := fun hlt =>
        h0 ((Nat.div_eq_zero_iff (by omega)).2 hlt)
      have hlt : n / 10 < n := Nat.div_lt_self (by omega) (by omega)
      have hdiv : n / 10 < fuel := by omega
      rw [if_neg h0, ih (n / 10) _ hdiv]
      conv_rhs => rw [decChars, dif_neg hn]
      rw [List.append_assoc]
      rfl

/-- The decimal digits of a natural number render it faithfully. -/
theorem repr_data (n : Nat) : (Nat.repr n).data = decChars n := by
  show (Nat.toDigits 10 n).asString.data = decChars n
  rw [Nat.toDigits, toDigitsCore_eq_decChars (n + 1) n [] (by omega),
    List.append_nil]
  rfl

/-- Folding the decimal decoder over `decChars n` starting from any
accumulator recovers `n` below the accumulator shifted by the digit
count. -/
theorem foldl_decChars (n : Nat) :
    ∀ acc : Nat,
      List.foldl (fun acc c => acc * 10 + (c.toNat - 48)) acc (decChars n)
        = acc * 10 ^ (decChars n).length + n := by
  induction n using Nat.strong_induction_on with
  | _ n ih =>
    intro acc
    have hdigit : ∀ m, m < 10 → (Nat.digitChar m).toNat - 48 = m := by decide
    by_cases h : n < 10
    · rw [decChars, dif_pos h]
      simp only [List.foldl, List.length_cons, List.length_nil, Nat.zero_add,
        pow_one]
      rw [hdigit n h]
    · rw [decChars, dif_neg h]
      rw [List.foldl_append]
      simp only [List.foldl]
      rw [ih (n / 10) (Nat.div_lt_self (by omega) (by omega)) acc]
      rw [hdigit (n % 10) (Nat.mod_lt n (by omega))]
      rw [List.length_append, List.length_cons, List.length_nil]
      calc (acc * 10 ^ (decChars (n / 10)).length + n / 10) * 10 + n % 10
          = acc * (10 ^ (decChars (n / 10)).length * 10)
              + (10 * (n / 10) + n % 10) := by ring
        _ = acc * 10 ^ ((decChars (n / 10)).length + 1) + n := by
            rw [Nat.div_add_mod, pow_succ]

/-- Decoding inverts the decimal rendering. -/
theorem decodeDec_decChars (n : Nat) : decodeDec (decChars n) = n := by
  rw [decodeDec, foldl_decChars n 0, Nat.zero_mul, Nat.zero_add]

/-- Distinct numbers have distinct decimal renderings. -/
theorem decChars_injective : Function.Injective decChars := by
  intro m n h
  have hm := decodeDec_decChars m
  rw [h, decodeDec_decChars] at hm
  exact hm.symm

/-- `Nat.repr` is injective. -/
theorem repr_injective : Function.Injective Nat.repr := by
  intro m n h
  apply decChars_injective
  rw [← repr_data, ← repr_data, h]

/-- Two strings with the same character data are equal. -/
theorem string_data_inj {s t : String} (h : s.data = t.data) : s = t :=
  congrArg String.mk h

/-- Claim C3, counterexample: two uploads with the same original
filename received in the same whole second are stored under the same
path, so the second overwrites the first; concretely, both uploads of
`doc.pdf` at second 100 store to `/tmp/print_100_doc.pdf`. -/
theorem C3_counterexample :
    (receive_file "/tmp" 100 ⟨true, "doc.pdf"⟩
        ⟨none, [], "welcome"⟩).2.1.currentFile
      = (receive_file "/tmp" 100 ⟨true, "doc.pdf"⟩
          (receive_file "/tmp" 100 ⟨true, "doc.pdf"⟩
            ⟨none, [], "welcome"⟩).2.1).2.1.currentFile
    ∧ (receive_file "/tmp" 100 ⟨true, "doc.pdf"⟩
        ⟨none, [], "welcome"⟩).2.1.currentFile
      = some "/tmp/print_100_doc.pdf" := by
  constructor
  · rfl
  · decide

/-- Decimal renderings consist of digit characters only: no
underscore ever appears. -/
theorem decChars_no_underscore (n : Nat) :
    ∀ c ∈ decChars n, c ≠ '_' := by
  induction n using Nat.strong_induction_on with
  | _ n ih =>
    have hdig : ∀ m, m < 10 → Nat.digitChar m ≠ '_' := by decide
    by_cases h : n < 10
    · rw [decChars, dif_pos h]
      intro c hc
      rw [List.mem_singleton] at hc
      subst hc
      exact hdig n h
    · rw [decChars, dif_neg h]
      intro c hc
      rcases List.mem_append.1 hc with hc1 | hc2
      · exact ih (n / 10) (Nat.div_lt_self (by omega) (by omega)) c hc1
      · rw [List.mem_singleton] at hc2
        subst hc2
        exact hdig (n % 10) (Nat.mod_lt n (by omega))

/-- Lists assembled as prefix, separator, suffix are componentwise
equal when the separator occurs in neither prefix. -/
theorem append_underscore_inj :
    ∀ d1 d2 n1 n2 : List Char, '_' ∉ d1 → '_' ∉ d2 →
      d1 ++ '_' :: n1 = d2 ++ '_' :: n2 → d1 = d2 ∧ n1 = n2 := by
  intro d1
  induction d1 with
  | nil =>
    intro d2 n1 n2 _ hd2 h
    cases d2 with
    | nil =>
      rw [List.nil_append, List.nil_append] at h
      injection h with _ h2
      exact ⟨rfl, h2⟩
    | cons b d2 =>
      rw [List.nil_append, List.cons_append] at h
      injection h with h1 _
      exact absurd (by rw [h1]; exact List.mem_cons_self b d2) hd2
  | cons a d1 ih =>
    intro d2 n1 n2 hd1 hd2 h
    cases d2 with
    | nil =>
      rw [List.cons_append, List.nil_append] at h
      injection h with h1 _
      exact absurd (by rw [← h1]; exact List.mem_cons_self a d1) hd1
    | cons b d2 =>
      rw [List.cons_append, List.cons_append] at h
      injection h with h1 h2
      have hd1' : '_' ∉ d1 := fun hm => hd1 (List.mem_cons_of_mem a hm)
      have hd2' : '_' ∉ d2 := fun hm => hd2 (List.mem_cons_of_mem b hm)
      obtain ⟨he, hn⟩ := ih d2 n1 n2 hd1' hd2' h2
      exact ⟨by rw [h1, he], hn⟩

/-- Claim C3, amended: two uploads with the same original filename
received within the same whole second are stored under the same path
(the second overwrites the first); any other pair of uploads — one
differing in whole-second timestamp or in original filename —
receives distinct stored paths. -/
theorem C3_amended_distinct_paths (tempDir : String) (t1 t2 : Nat)
    (n1 n2 : String) (h : ¬(t1 = t2 ∧ n1 = n2)) :
    storedPath tempDir t1 n1 ≠ storedPath tempDir t2 n2 := by
  intro he
  have hd : (storedPath tempDir t1 n1).data = (storedPath tempDir t2 n2).data := by
    rw [he]
  simp only [storedPath, storedName, String.data_append, List.append_assoc] at hd
  have hd1 := List.append_cancel_left hd
  have hd2 := List.append_cancel_left hd1
  have hd3 := List.append_cancel_left hd2
  rw [List.singleton_append, List.singleton_append] at hd3
  have h1 : '_' ∉ (Nat.repr t1).data := by
    rw [repr_data]
    exact fun hm => decChars_no_underscore t1 _ hm rfl
  have h2 : '_' ∉ (Nat.repr t2).data := by
    rw [repr_data]
    exact fun hm => decChars_no_underscore t2 _ hm rfl
  obtain ⟨hr, hn⟩ := append_underscore_inj _ _ _ _ h1 h2 hd3
  exact h ⟨repr_injective (string_data_inj hr), string_data_inj hn⟩

/-- Witness for the amended C3: seconds 100 and 101 with two
different filenames. -/
theorem C3_amended_distinct_paths_witness :
    storedPath "/tmp" 100 "a.pdf" ≠ storedPath "/tmp" 101 "b.pdf" :=
  C3_amended_distinct_paths "/tmp" 100 101 "a.pdf" "b.pdf" (by decide)

/-- Claim C4: an intake request without a file part, or with an empty
filename, is answered with status 400 and a failure flag, leaves the
kiosk state untouched (no file stored, active document unchanged),
and emits no document-ready event. -/
theorem C4_invalid_upload_no_side_effects (tempDir : String) (t : Nat)
    (req : UploadRequest) (s : KioskState)
    (h : req.hasFilePart = false ∨ req.filename = "") :
    (receive_file tempDir t req s).1.status = 400
    ∧ (receive_file tempDir t req s).1.success = false
    ∧ (receive_file tempDir t req s).2.1 = s
    ∧ (receive_file tempDir t req s).2.2 = false := by
  rcases h with h | h
  · simp [receive_file, h]
  · by_cases hf : req.hasFilePart = false
    · simp [receive_file, hf]
    · simp [receive_file, hf, h]

/-- Witness for C4: a request with a file part but empty filename. -/
theorem C4_invalid_upload_no_side_effects_witness :
    (receive_file "/tmp" 100 ⟨true, ""⟩ ⟨none, [], "welcome"⟩).1.status = 400
    ∧ (receive_file "/tmp" 100 ⟨true, ""⟩ ⟨none, [], "welcome"⟩).1.success = false
    ∧ (receive_file "/tmp" 100 ⟨true, ""⟩ ⟨none, [], "welcome"⟩).2.1
        = ⟨none, [], "welcome"⟩
    ∧ (receive_file "/tmp" 100 ⟨true, ""⟩ ⟨none, [], "welcome"⟩).2.2 = false :=
  C4_invalid_upload_no_side_effects "/tmp" 100 ⟨true, ""⟩ ⟨none, [], "welcome"⟩
    (Or.inr rfl)

/-- Claim C8, counterexample: after a second upload supersedes the
first, the first stored file still exists in the scratch area, and
even shutdown cleanup removes only the second; concretely, uploads of
`a.pdf` at seconds 100 and 101 leave `/tmp/print_100_a.pdf` on disk. -/
theorem C8_counterexample :
    "/tmp/print_100_a.pdf" ∈
      (receive_file "/tmp" 101 ⟨true, "a.pdf"⟩
        (receive_file "/tmp" 100 ⟨true, "a.pdf"⟩
          ⟨none, [], "welcome"⟩).2.1).2.1.disk
    ∧ "/tmp/print_100_a.pdf" ∈
      (cleanup
        (receive_file "/tmp" 101 ⟨true, "a.pdf"⟩
          (receive_file "/tmp" 100 ⟨true, "a.pdf"⟩
            ⟨none, [], "welcome"⟩).2.1).2.1).disk := by
  decide

/-- Claim C8, amended: a stored file is deleted only by shutdown
cleanup and only when it is the currently active document; intake
never removes a stored file, so a superseded upload remains in the
scratch area. -/
theorem C8_amended_only_active_deleted (tempDir : String) (t : Nat)
    (req : UploadRequest) (s : KioskState) (p : String) (hp : p ∈ s.disk) :
    p ∈ (receive_file tempDir t req s).2.1.disk
    ∧ (p ∈ (cleanup s).disk ∨ s.currentFile = some p) := by
  obtain ⟨cf, disk, scr⟩ := s
  constructor
  · unfold receive_file
    split
    · exact hp
    · split
      · exact hp
      · simp only [save]
        split
        · exact hp
        · exact List.mem_cons_of_mem _ hp
  · cases cf with
    | none => left; exact hp
    | some f =>
      by_cases hpf : p = f
      · right; rw [hpf]
      · left
        have hcl : cleanup ⟨some f, disk, scr⟩
            = if f ∈ disk then ⟨some f, disk.erase f, scr⟩
              else ⟨some f, disk, scr⟩ := rfl
        rw [hcl]
        by_cases hfd : f ∈ disk
        · rw [if_pos hfd]
          exact (List.mem_erase_of_ne hpf).2 hp
        · rw [if_neg hfd]
          exact hp

/-- Witness for the amended C8 at a one-file state. -/
theorem C8_amended_only_active_deleted_witness :
    "/tmp/print_100_a.pdf" ∈
      (receive_file "/tmp" 101 ⟨true, "b.pdf"⟩
        ⟨some "/tmp/print_100_a.pdf", ["/tmp/print_100_a.pdf"], "preview"⟩).2.1.disk
    ∧ ("/tmp/print_100_a.pdf" ∈
        (cleanup
          ⟨some "/tmp/print_100_a.pdf", ["/tmp/print_100_a.pdf"], "preview"⟩).disk
      ∨ (⟨some "/tmp/print_100_a.pdf", ["/tmp/print_100_a.pdf"],
          "preview"⟩ : KioskState).currentFile = some "/tmp/print_100_a.pdf") :=
  C8_amended_only_active_deleted "/tmp" 101 ⟨true, "b.pdf"⟩
    ⟨some "/tmp/print_100_a.pdf", ["/tmp/print_100_a.pdf"], "preview"⟩
    "/tmp/print_100_a.pdf" (by decide)

/-- Witness for C7 on the trace (state 5, state 8). -/
theorem C7_cancelled_is_terminal_witness :
    pollJob ([JobObs.state 5] ++ JobObs.state 8 :: [])
        = some PollOutcome.cancelled
    ∧ pollJob ([JobObs.state 5] ++ JobObs.state 8 :: [])
        ≠ some PollOutcome.completed
    ∧ do_print true ([JobObs.state 5] ++ JobObs.state 8 :: [])
        = ⟨"welcome", true, 1⟩ :=
  C7_cancelled_is_terminal [JobObs.state 5] []
    (by intro o ho; fin_cases ho; exact ⟨by decide, by decide⟩)

/-- Membership in the full page list is exactly the 1..total bound. -/
theorem mem_allPages {p total : Nat} :
    p ∈ allPages total ↔ 1 ≤ p ∧ p ≤ total := by
  simp only [allPages, List.mem_map, List.mem_range]
  constructor
  · rintro ⟨i, hi, rfl⟩; omega
  · intro h; exact ⟨p - 1, by omega, by omega⟩

/-- The full page list is strictly ascending. -/
theorem allPages_sorted (total : Nat) :
    List.Sorted (· < ·) (allPages total) :=
  (List.pairwise_lt_range total).map (fun i => i + 1)
    (fun a b hab => Nat.add_lt_add_right hab 1)

/-- Claim C1: for every expression accepted by the page-range parse
operation with at least one page, the result is strictly ascending,
duplicate-free and contained in 1..total; and the two reference
parses from the spec hold. -/
theorem C1_parse_sorted_bounded :
    (∀ (expr : String) (total : Nat) (l : List Nat), 1 ≤ total →
        parse expr total = Except.ok l →
        List.Sorted (· < ·) l ∧ l.Nodup ∧ ∀ p ∈ l, 1 ≤ p ∧ p ≤ total)
    ∧ parse "1-3,5" 10 = Except.ok [1, 2, 3, 5]
    ∧ parse "all" 5 = Except.ok [1, 2, 3, 4, 5] := by
  refine ⟨?_, rfl, rfl⟩
  intro expr total l htot hok
  have hl : l = allPages total ∨
      ∃ pred : Nat → Bool, l = (allPages total).filter pred := by
    unfold parse at hok
    split at hok
    · left; exact (Except.ok.inj hok).symm
    · split at hok
      · exact Except.noConfusion hok
      · right; exact ⟨_, (Except.ok.inj hok).symm⟩
  have hsorted : List.Sorted (· < ·) l := by
    rcases hl with rfl | ⟨pred, rfl⟩
    · exact allPages_sorted total
    · exact (allPages_sorted total).filter pred
  refine ⟨hsorted, hsorted.nodup, ?_⟩
  intro p hp
  rcases hl with rfl | ⟨pred, rfl⟩
  · exact mem_allPages.1 hp
  · exact mem_allPages.1 (List.mem_of_mem_filter hp)

/-- Witness for C1 on the accepted expression 1-3,5 with 10 pages. -/
theorem C1_parse_sorted_bounded_witness :
    List.Sorted (· < ·) [1, 2, 3, 5] ∧ List.Nodup [1, 2, 3, 5]
    ∧ ∀ p ∈ [1, 2, 3, 5], 1 ≤ p ∧ p ≤ 10 :=
  C1_parse_sorted_bounded.1 "1-3,5" 10 [1, 2, 3, 5] (by decide)
    C1_parse_sorted_bounded.2.1

/-- A failing token parse always carries the token itself. -/
theorem parseToken_error_eq {total : Nat} {tok e : String}
    (h : parseToken total tok = Except.error e) : e = tok := by
  unfold parseToken at h
  split at h
  · exact Except.noConfusion h
  · injection h with h1
    exact h1.symm

/-- A token list with an invalid token collects to the error carrying
one of its invalid tokens. -/
theorem collectRanges_error (total : Nat) :
    ∀ ts : List String,
      (∃ t ∈ ts, parseToken total t = Except.error t) →
      ∃ t ∈ ts, collectRanges total ts = Except.error t
        ∧ parseToken total t = Except.error t := by
  intro ts
  induction ts with
  | nil =>
    rintro ⟨t, ht, _⟩
    cases ht
  | cons a ts ih =>
    rintro ⟨t, ht, herr⟩
    cases hpa : parseToken total a with
    | error e =>
      have he : e = a := parseToken_error_eq hpa
      rw [he] at hpa
      refine ⟨a, List.mem_cons_self a ts, ?_, hpa⟩
      simp only [collectRanges, hpa]
    | ok r =>
      rcases List.mem_cons.1 ht with rfl | hts
      · rw [hpa] at herr
        exact Except.noConfusion herr
      · obtain ⟨u, hu, hcr, herr'⟩ := ih ⟨t, hts, herr⟩
        refine ⟨u, List.mem_cons_of_mem a hu, ?_, herr'⟩
        simp only [collectRanges, hpa, hcr]

/-- Claim C2: a range expression (other than the all-pages forms)
containing an offending token — malformed, out of range, or a
reversed range — fails with the InvalidRange error carrying an
offending token; and the two reference failures from the spec hold. -/
theorem C2_parse_invalid_token (expr : String) (total : Nat)
    (hne : ¬(expr = "all" ∨ expr = ""))
    (hbad : ∃ t ∈ tokens expr, parseToken total t = Except.error t) :
    (∃ t ∈ tokens expr,
        parse expr total = Except.error t
        ∧ parseToken total t = Except.error t)
    ∧ parse "3-2" 5 = Except.error "3-2"
    ∧ parse "1-10" 5 = Except.error "1-10" := by
  refine ⟨?_, rfl, rfl⟩
  obtain ⟨u, hu, hcr, herr⟩ := collectRanges_error total (tokens expr) hbad
  refine ⟨u, hu, ?_, herr⟩
  unfold parse
  rw [if_neg hne, hcr]

/-- Witness for C2 on the out-of-range expression 0 with 5 pages. -/
theorem C2_parse_invalid_token_witness :
    (∃ t ∈ tokens "0",
        parse "0" 5 = Except.error t ∧ parseToken 5 t = Except.error t)
    ∧ parse "3-2" 5 = Except.error "3-2"
    ∧ parse "1-10" 5 = Except.error "1-10" :=
  C2_parse_invalid_token "0" 5 (by decide) ⟨"0", by decide, rfl⟩

end Kiosk
